import Mathlib

/-
Shallow embedding of the wdk-wallet-btc repository:
  * src/src/wallet-account-btc.js  (WalletAccountBtc: sendTransaction pipeline,
    message verify)
  * src/src/electrum-client.js     (ElectrumClient: handleResponse, getScriptHash)

Modelling conventions:
  * Satoshi values are `Int`; BTC amounts and fee rates (BigNumber decimals in
    the source) are `Rat`.
  * Network and codec collaborators (Electrum server answers, bitcoinjs-lib
    Psbt virtual-size / hex / id computation, bip32 signature checking,
    address-to-script encoding) are oracle parameters bundled in `Env` or
    passed as function arguments; the wallet code itself is embedded.
  * Fallible code returns `Except String`; each operation also returns the
    ordered list of externally visible actions (`Event`) it performed, so
    temporal claims (what happened before a failure) are statable.
  * Line 96 of src/src/wallet-account-btc.js contains the syntactically
    incomplete fragment `if(feeRate > ` (an unfinished statement with no
    consequent); it denotes no executable behaviour and is elided here.
-/

/-- BigNumber.ROUND_CEIL: round towards positive infinity. -/
def ceilInt (q : Rat) : Int := -⌊-q⌋

/-- BigNumber.ROUND_DOWN: round towards zero (truncation). -/
def truncInt (q : Rat) : Int := if 0 ≤ q then ⌊q⌋ else ceilInt q

/-- Line 243: `new BigNumber(amount).multipliedBy(100000000).integerValue(BigNumber.ROUND_DOWN)`,
the BTC-to-satoshi conversion at the entry of `sendTransaction`. -/
def toSatoshi (amount : Rat) : Int := truncInt (amount * 100000000)

/-- Line 17: `const DUST_LIMIT = 546`. -/
def DUST_LIMIT : Int := 546

/-- One output of a parent transaction as returned by the verbose
`blockchain.transaction.get` call; only `scriptPubKey.hex` is consumed. -/
structure Vout where
  scriptPubKeyHex : String
deriving Repr, DecidableEq

/-- One entry of the server's `blockchain.scripthash.listunspent` answer. -/
structure Utxo where
  tx_hash : String
  tx_pos : Nat
  value : Int
deriving Repr, DecidableEq

/-- A parent transaction: its list of outputs. -/
structure ParentTx where
  vout : List Vout
deriving Repr, DecidableEq

/-- A collected unspent output: the listunspent entry together with
`tx.vout[utxo.tx_pos]` (`none` when the index is out of range, matching the
JavaScript `undefined`). -/
structure CollectedUtxo where
  utxo : Utxo
  vout : Option Vout
deriving Repr, DecidableEq

/-- One Psbt input as assembled by `psbt.addInput` (lines 165-179). -/
structure PsbtInput where
  hash : String
  index : Nat
  witnessScriptHex : String
  value : Int
deriving Repr, DecidableEq

/-- One Psbt output as assembled by `psbt.addOutput`. -/
structure PsbtOutput where
  address : String
  value : Int
deriving Repr, DecidableEq

/-- The transaction draft assembled by `createPsbt`. -/
structure Draft where
  inputs : List PsbtInput
  outputs : List PsbtOutput
deriving Repr, DecidableEq

/-- Externally visible actions of one `sendTransaction` call, in order.
`signInput p i` is `psbt.signInputHD(i, ...)` during pass `p` (pass 0 builds
the zero-fee measurement draft, pass 1 the final draft). -/
inductive Event where
  | estimateFee : Event
  | getUnspent : String → Event
  | getTx : String → Event
  | signInput : Nat → Nat → Event
  | broadcast : String → Event
deriving Repr, DecidableEq

/-- The external collaborators of one `sendTransaction` call: the Electrum
server's answers and the bitcoinjs-lib transaction codec. -/
structure Env where
  feeEstimateResult : Except String Rat
  unspentResult : Except String (Option (List Utxo))
  txResult : String → Except String ParentTx
  vsizeOf : Draft → Nat
  hexOf : Draft → String
  idOf : Draft → String
  broadcastResult : String → Except String String

/-- The account fields consumed by the payment pipeline. -/
structure Account where
  address : String
deriving Repr, DecidableEq

/-- The result of `#generateRawTx` (lines 219-222): `{txid, hex}`, extended
with two ghost fields recording the fee used for the final assembly and the
final draft itself (both observable in the real transaction bytes). -/
structure TxResult where
  txid : String
  hex : String
  fee : Int
  draft : Draft
deriving Repr, DecidableEq

/-- The loop body of `#collectUtxos` (lines 123-140): iterate over the
unspent list in server order, fetch each candidate's parent transaction,
resolve `tx.vout[utxo.tx_pos]`, accumulate the value, and break as soon as
the running total reaches the requested amount. -/
def collectLoop (env : Env) (amount : Int) :
    List Utxo → Int → List Event × Except String (List CollectedUtxo)
  | [], _ => ([], .ok [])
  | u :: rest, total =>
    match env.txResult u.tx_hash with
    | .error e => ([.getTx u.tx_hash], .error ("Failed to fetch transaction: " ++ e))
    | .ok tx =>
      let item : CollectedUtxo := { utxo := u, vout := tx.vout.get? u.tx_pos }
      let total2 := total + u.value
      if total2 ≥ amount then
        ([.getTx u.tx_hash], .ok [item])
      else
        match collectLoop env amount rest total2 with
        | (evs, .error e) => (.getTx u.tx_hash :: evs, .error e)
        | (evs, .ok items) => (.getTx u.tx_hash :: evs, .ok (item :: items))

/-- `#collectUtxos` (lines 107-143): fetch the unspent set, fail when it is
missing or empty, otherwise run the first-fit collection loop. -/
def collectUtxos (env : Env) (amount : Int) (address : String) :
    List Event × Except String (List CollectedUtxo) :=
  match env.unspentResult with
  | .error e => ([.getUnspent address], .error ("Failed to fetch UTXOs: " ++ e))
  | .ok none => ([.getUnspent address], .error "No unspent outputs available")
  | .ok (some []) => ([.getUnspent address], .error "No unspent outputs available")
  | .ok (some us) =>
    match collectLoop env amount us 0 with
    | (evs, r) => (.getUnspent address :: evs, r)

/-- The `psbt.addInput` loop (lines 164-180). Reading
`utxo.vout.scriptPubKey.hex` when the resolved output is `undefined` raises
a TypeError in JavaScript. -/
def buildInputs : List CollectedUtxo → Except String (List PsbtInput)
  | [] => .ok []
  | c :: rest =>
    match c.vout with
    | none => .error "TypeError: Cannot read properties of undefined"
    | some v =>
      (buildInputs rest).map fun ins =>
        { hash := c.utxo.tx_hash, index := c.utxo.tx_pos,
          witnessScriptHex := v.scriptPubKeyHex, value := c.utxo.value } :: ins

/-- Lines 155-158: `totalInput` is the sum of the collected utxo values. -/
def totalInputOf (utxoSet : List CollectedUtxo) : Int :=
  utxoSet.foldl (fun acc c => acc + c.utxo.value) 0

/-- The `psbt.signInputHD(index, ...)` loop (lines 197-199) of pass `p`
over `n` inputs, recorded as events. -/
def signEvents (p n : Nat) : List Event := (List.range n).map (Event.signInput p)

/-- The inner `createPsbt` closure (lines 161-203): add all inputs, add the
recipient output, add a change output when `totalInput - sendAmount - fee`
exceeds the dust limit, throw `Insufficient balance.` when it is negative,
then sign every input. -/
def createPsbt (self : Account) (utxoSet : List CollectedUtxo)
    (sendAmount totalInput : Int) (recipient : String) (p : Nat) (fee : Int) :
    List Event × Except String Draft :=
  match buildInputs utxoSet with
  | .error e => ([], .error e)
  | .ok ins =>
    let change := totalInput - sendAmount - fee
    if change > DUST_LIMIT then
      (signEvents p utxoSet.length,
        .ok { inputs := ins,
              outputs := [{ address := recipient, value := sendAmount },
                          { address := self.address, value := change }] })
    else if change < 0 then
      ([], .error "Insufficient balance.")
    else
      (signEvents p utxoSet.length,
        .ok { inputs := ins,
              outputs := [{ address := recipient, value := sendAmount }] })

/-- The zero-fee measurement draft `createPsbt(0)` (line 205). -/
def zeroFeeDraft (self : Account) (utxoSet : List CollectedUtxo)
    (sendAmount : Int) (recipient : String) : Except String Draft :=
  (createPsbt self utxoSet sendAmount (totalInputOf utxoSet) recipient 0 0).2

/-- Lines 207-212: `estimatedFee = max(ceil(feeRate * virtualSize), 141)`. -/
def computeFee (feeRate : Rat) (vsize : Nat) : Int :=
  max (ceilInt (feeRate * (vsize : Rat))) 141

/-- `#generateRawTx` (lines 145-223): dust-limit validation, two-pass
assembly (zero-fee draft for size measurement, then the final draft with the
computed fee), extraction of txid and raw hex. -/
def generateRawTx (env : Env) (self : Account) (utxoSet : List CollectedUtxo)
    (sendAmount : Int) (recipient : String) (feeRate : Rat) :
    List Event × Except String TxResult :=
  if sendAmount ≤ DUST_LIMIT then
    ([], .error ("send amount must be bigger than dust limit " ++
      toString DUST_LIMIT ++ " got: " ++ toString sendAmount))
  else
    let totalInput := totalInputOf utxoSet
    match createPsbt self utxoSet sendAmount totalInput recipient 0 0 with
    | (evs, .error e) => (evs, .error e)
    | (evs, .ok draft0) =>
      let estimatedFee := computeFee feeRate (env.vsizeOf draft0)
      match createPsbt self utxoSet sendAmount totalInput recipient 1 estimatedFee with
      | (evs2, .error e) => (evs ++ evs2, .error e)
      | (evs2, .ok draft1) =>
        (evs ++ evs2,
          .ok { txid := env.idOf draft1, hex := env.hexOf draft1,
                fee := estimatedFee, draft := draft1 })

/-- `#createTransaction` (lines 86-105): fee-rate estimation (the one-block
estimate scaled by 100000), utxo collection, raw transaction generation. -/
def createTransaction (env : Env) (self : Account) (amount : Int)
    (recipient : String) : List Event × Except String TxResult :=
  match env.feeEstimateResult with
  | .error e => ([.estimateFee], .error ("Failed to estimate fee: " ++ e))
  | .ok feeEstimate =>
    let feeRate := feeEstimate * 100000
    match collectUtxos env amount self.address with
    | (evs, .error e) => (.estimateFee :: evs, .error e)
    | (evs, .ok utxoSet) =>
      match generateRawTx env self utxoSet amount recipient feeRate with
      | (evs2, r) => (.estimateFee :: (evs ++ evs2), r)

/-- `#broadcastTransaction` (lines 225-232). -/
def broadcastTx (env : Env) (txHex : String) : List Event × Except String String :=
  match env.broadcastResult txHex with
  | .error e => ([.broadcast txHex], .error ("Failed to broadcast transaction: " ++ e))
  | .ok r => ([.broadcast txHex], .ok r)

/-- `sendTransaction` (lines 242-252): convert the BTC amount to satoshis,
build the transaction, broadcast it (coarsening any broadcast failure to
`failed to broadcast tx`), and return `tx.txid`. -/
def sendTransaction (env : Env) (self : Account) (amount : Rat) (toAddr : String) :
    List Event × Except String String :=
  let satoshi := toSatoshi amount
  match createTransaction env self satoshi toAddr with
  | (evs, .error e) => (evs, .error e)
  | (evs, .ok tx) =>
    match broadcastTx env tx.hex with
    | (evs2, .error _) => (evs ++ evs2, .error "failed to broadcast tx")
    | (evs2, .ok _) => (evs ++ evs2, .ok tx.txid)

/-- Sum of the values of a raw unspent list (used to state the first-fit
prefix property of `collectUtxos`). -/
def sumValues (us : List Utxo) : Int := us.foldl (fun acc u => acc + u.value) 0

/-- A parsed JSON-RPC response as consumed by `ElectrumClient.handleResponse`:
`id` is `none` when the field is absent, `error` is `some message` when the
response carries a (truthy) error object, and `result` is the result payload
(of arbitrary JSON shape, abstracted as a type parameter). -/
structure RpcResponse (ρ : Type) where
  id : Option Int
  error : Option String
  result : ρ

/-- `Map.get` on the pending-request table keyed by request id; the
completion handle type is abstract. -/
def findPending {κ : Type} (i : Int) : List (Int × κ) → Option κ
  | [] => none
  | (j, h) :: rest => if j = i then some h else findPending i rest

/-- `Map.delete` on the pending-request table. -/
def removePending {κ : Type} (i : Int) : List (Int × κ) → List (Int × κ)
  | [] => []
  | (j, h) :: rest => if j = i then rest else (j, h) :: removePending i rest

/-- How a matched pending request is settled: resolved with the result or
rejected with `new Error(response.error.message)`. -/
inductive Settlement (ρ : Type) where
  | resolved : ρ → Settlement ρ
  | rejected : String → Settlement ρ

/-- `handleResponse` (electrum-client.js lines 98-109): the guard is
`response.id && pendingRequests.has(response.id)` — note that a response id
of `0` is falsy in JavaScript, so it never matches. On a match the entry is
deleted and settled; otherwise the table is untouched and nothing settles. -/
def handleResponse {κ ρ : Type} (r : RpcResponse ρ) (pending : List (Int × κ)) :
    List (Int × κ) × Option (κ × Settlement ρ) :=
  match r.id with
  | none => (pending, none)
  | some i =>
    if i = 0 then (pending, none)
    else
      match findPending i pending with
      | none => (pending, none)
      | some h =>
        match r.error with
        | some msg => (removePending i pending, some (h, .rejected msg))
        | none => (removePending i pending, some (h, .resolved r.result))

/-
SHA-256 (FIPS 180-4), the reference function computed by the external
`crypto.sha256` collaborator of bitcoinjs-lib, over byte lists. Words are
`Nat` reduced mod 2^32.
-/

/-- Truncate to a 32-bit word. -/
def w32 (n : Nat) : Nat := n % 4294967296

/-- Right rotation of a 32-bit word. -/
def rotr32 (n w : Nat) : Nat := ((w >>> n) ||| (w <<< (32 - n))) % 4294967296

/-- SHA-256 big sigma 0. -/
def bSig0 (x : Nat) : Nat := (rotr32 2 x) ^^^ (rotr32 13 x) ^^^ (rotr32 22 x)

/-- SHA-256 big sigma 1. -/
def bSig1 (x : Nat) : Nat := (rotr32 6 x) ^^^ (rotr32 11 x) ^^^ (rotr32 25 x)

/-- SHA-256 small sigma 0. -/
def sSig0 (x : Nat) : Nat := (rotr32 7 x) ^^^ (rotr32 18 x) ^^^ (x >>> 3)

/-- SHA-256 small sigma 1. -/
def sSig1 (x : Nat) : Nat := (rotr32 17 x) ^^^ (rotr32 19 x) ^^^ (x >>> 10)

/-- SHA-256 choose function (not-x is xor against the all-ones word). -/
def chFun (x y z : Nat) : Nat := (x &&& y) ^^^ ((x ^^^ 4294967295) &&& z)

/-- SHA-256 majority function. -/
def majFun (u v w : Nat) : Nat := ((u &&& v) ^^^ (u &&& w)) ^^^ (v &&& w)

/-- The 64 SHA-256 round constants. -/
def shaK : List Nat :=
  [1116352408, 1899447441, 3049323471, 3921009573,
   961987163, 1508970993, 2453635748, 2870763221,
   3624381080, 310598401, 607225278, 1426881987,
   1925078388, 2162078206, 2614888103, 3248222580,
   3835390401, 4022224774, 264347078, 604807628,
   770255983, 1249150122, 1555081692, 1996064986,
   2554220882, 2821834349, 2952996808, 3210313671,
   3336571891, 3584528711, 113926993, 338241895,
   666307205, 773529912, 1294757372, 1396182291,
   1695183700, 1986661051, 2177026350, 2456956037,
   2730485921, 2820302411, 3259730800, 3345764771,
   3516065817, 3600352804, 4094571909, 275423344,
   430227734, 506948616, 659060556, 883997877,
   958139571, 1322822218, 1537002063, 1747873779,
   1955562222, 2024104815, 2227730452, 2361852424,
   2428436474, 2756734187, 3204031479, 3329325298]

/-- The eight 32-bit working variables of SHA-256. -/
structure Sha256State where
  a : Nat
  b : Nat
  c : Nat
  d : Nat
  e : Nat
  f : Nat
  g : Nat
  h : Nat
deriving Repr, DecidableEq

/-- One SHA-256 compression round; `kw` is the round constant plus the
schedule word (mod 2^32). -/
def sha256Round (s : Sha256State) (kw : Nat) : Sha256State :=
  let t1 := w32 (s.h + bSig1 s.e + chFun s.e s.f s.g + kw)
  let t2 := w32 (bSig0 s.a + majFun s.a s.b s.c)
  { a := w32 (t1 + t2), b := s.a, c := s.b, d := s.c,
    e := w32 (s.d + t1), f := s.e, g := s.f, h := s.g }

/-- Extend the 16-word block to the 64-word message schedule; the list is
kept newest-first. -/
def extendSchedule : Nat → List Nat → List Nat
  | 0, r => r
  | n + 1, r =>
    let nw := w32 (sSig1 (r.getD 1 0) + r.getD 6 0 + sSig0 (r.getD 14 0) + r.getD 15 0)
    extendSchedule n (nw :: r)

/-- Pack bytes into big-endian 32-bit words. -/
def bytesToWords : List Nat → List Nat
  | b0 :: b1 :: b2 :: b3 :: rest =>
    (((b0 % 256) <<< 24) + ((b1 % 256) <<< 16) + ((b2 % 256) <<< 8) + (b3 % 256))
      :: bytesToWords rest
  | _ => []

/-- Compress one 64-byte block into the running state. -/
def sha256Compress (st : Sha256State) (block : List Nat) : Sha256State :=
  let ws := (extendSchedule 48 (bytesToWords block).reverse).reverse
  let fin := (shaK.zip ws).foldl (fun s kw => sha256Round s (w32 (kw.1 + kw.2))) st
  { a := w32 (st.a + fin.a), b := w32 (st.b + fin.b), c := w32 (st.c + fin.c),
    d := w32 (st.d + fin.d), e := w32 (st.e + fin.e), f := w32 (st.f + fin.f),
    g := w32 (st.g + fin.g), h := w32 (st.h + fin.h) }

/-- The 8-byte big-endian bit-length trailer of SHA-256 padding. -/
def lenBytes64 (n : Nat) : List Nat :=
  [(n >>> 56) % 256, (n >>> 48) % 256, (n >>> 40) % 256, (n >>> 32) % 256,
   (n >>> 24) % 256, (n >>> 16) % 256, (n >>> 8) % 256, n % 256]

/-- SHA-256 padding: a 0x80 byte, zeros to 56 mod 64, then the bit length. -/
def padMessage (msg : List Nat) : List Nat :=
  let len := msg.length
  let zeros := (119 - (len % 64)) % 64
  msg ++ 128 :: (List.replicate zeros 0 ++ lenBytes64 (8 * len))

/-- Split into 64-byte blocks (fuel-driven; the fuel is the list length). -/
def chunk64 : Nat → List Nat → List (List Nat)
  | 0, _ => []
  | _, [] => []
  | fuel + 1, l => l.take 64 :: chunk64 fuel (l.drop 64)

/-- The SHA-256 initial state. -/
def sha256Init : Sha256State :=
  { a := 1779033703, b := 3144134277, c := 1013904242, d := 2773480762,
    e := 1359893119, f := 2600822924, g := 528734635, h := 1541459225 }

/-- Serialize a 32-bit word to 4 big-endian bytes. -/
def wordBytes (w : Nat) : List Nat :=
  [(w >>> 24) % 256, (w >>> 16) % 256, (w >>> 8) % 256, w % 256]

/-- Serialize the final state to the 32-byte digest. -/
def stateBytes (s : Sha256State) : List Nat :=
  wordBytes s.a ++ wordBytes s.b ++ wordBytes s.c ++ wordBytes s.d ++
  wordBytes s.e ++ wordBytes s.f ++ wordBytes s.g ++ wordBytes s.h

/-- SHA-256 of a byte list. -/
def sha256 (msg : List Nat) : List Nat :=
  let padded := padMessage msg
  stateBytes ((chunk64 padded.length padded).foldl sha256Compress sha256Init)

/-- Lower-case hexadecimal digit for a value below 16. -/
def hexDigitChar (n : Nat) : Char :=
  if n < 10 then Char.ofNat (48 + n) else Char.ofNat (87 + n)

/-- Two lower-case hex characters of one byte. -/
def byteHex (b : Nat) : List Char := [hexDigitChar (b / 16), hexDigitChar (b % 16)]

/-- Lower-case hex string of a byte list (Buffer.toString with hex encoding). -/
def bytesToHex (bs : List Nat) : String := String.mk ((bs.map byteHex).flatten)

/-- The characters a lower-case hex string may contain: a decimal digit or
one of the letters a through f. -/
def isHexLowerChar (c : Char) : Prop :=
  c.isDigit = true ∨ ('a' ≤ c ∧ c ≤ 'f')

instance (c : Char) : Decidable (isHexLowerChar c) := by
  unfold isHexLowerChar; infer_instance

/-- `getScriptHash` (electrum-client.js lines 171-175): the byte-reversed
SHA-256 of the address's output script, hex encoded. `toOutputScript` is the
external bitcoinjs-lib address encoder; it throws on an invalid address,
modelled as `none`. -/
def getScriptHash (toOutputScript : String → Option (List Nat))
    (address : String) : Option String :=
  (toOutputScript address).map fun script => bytesToHex (sha256 script).reverse

/-- The base64 value of one character, `none` for characters outside the
base64 alphabet (Node's forgiving decoder skips those). -/
def b64Val (c : Char) : Option Nat :=
  if 'A' ≤ c ∧ c ≤ 'Z' then some (c.toNat - 65)
  else if 'a' ≤ c ∧ c ≤ 'z' then some (c.toNat - 97 + 26)
  else if '0' ≤ c ∧ c ≤ '9' then some (c.toNat - 48 + 52)
  else if c = '+' then some 62
  else if c = '/' then some 63
  else none

/-- Reassemble bytes from 6-bit groups, four at a time; a trailing group of
two or three values yields one or two bytes, a lone value yields nothing. -/
def b64Groups : List Nat → List Nat
  | a :: b :: c :: d :: rest =>
    (a * 4 + b / 16) :: ((b % 16) * 16 + c / 4) :: ((c % 4) * 64 + d) :: b64Groups rest
  | [a, b, c] => [a * 4 + b / 16, (b % 16) * 16 + c / 4]
  | [a, b] => [a * 4 + b / 16]
  | _ => []

/-- `Buffer.from(signature, 'base64')`: Node's forgiving base64 decoder; it
never throws, it drops characters outside the alphabet and truncates an
incomplete trailing group. -/
def base64Decode (s : String) : List Nat := b64Groups (s.data.filterMap b64Val)

/-- `Buffer.from(message)`: the UTF-8 bytes of the message string. -/
def utf8Bytes (s : String) : List Nat := s.toUTF8.data.toList.map (fun b => b.toNat)

/-- The body of the `try` block of `verify` (wallet-account-btc.js lines
76-80): recompute the SHA-256 of the UTF-8 message bytes, decode the base64
signature, and ask the bip32 collaborator (which throws on malformed key or
signature material, hence `Except`). -/
def verifyRaw (bip32Verify : List Nat → List Nat → Except String Bool)
    (message signature : String) : Except String Bool :=
  bip32Verify (sha256 (utf8Bytes message)) (base64Decode signature)

/-- `verify` (wallet-account-btc.js lines 75-84): the whole body runs inside
try/catch, any thrown error is converted to the boolean `false`. -/
def verify (bip32Verify : List Nat → List Nat → Except String Bool)
    (message signature : String) : Bool :=
  match verifyRaw bip32Verify message signature with
  | .ok b => b
  | .error _ => false

/-
Concrete fixtures for closed evaluations: a wallet account and Electrum /
codec oracles describing small reachable server states.
-/

/-- A wallet account whose funding address is `addr-self`. -/
def acctA : Account := { address := "addr-self" }

/-- Baseline oracle: zero fee estimate, no unspent outputs, fixed codec
answers (virtual size 110, txid `txid0`, raw hex `rawhex0`), broadcasts
succeed. -/
def envBase : Env :=
  { feeEstimateResult := .ok 0
    unspentResult := .ok none
    txResult := fun _ => .error "missing"
    vsizeOf := fun _ => 110
    hexOf := fun _ => "rawhex0"
    idOf := fun _ => "txid0"
    broadcastResult := fun _ => .ok "txid0" }

/-- Oracle for a fully successful pipeline: one 5000-satoshi unspent output
`h1` whose parent transaction resolves to script `spk`. -/
def envOkPipe : Env :=
  { envBase with
    unspentResult := .ok (some [{ tx_hash := "h1", tx_pos := 0, value := 5000 }])
    txResult := fun _ => .ok { vout := [{ scriptPubKeyHex := "spk" }] } }

/-- Oracle where the fee (4 sat/vB on a 110-vB draft, so 440 sats) exceeds
the 400-satoshi leftover of a 1000-satoshi input funding a 600-satoshi send:
the zero-fee pass succeeds and signs, the final pass throws. -/
def envFeeShort : Env :=
  { envBase with
    feeEstimateResult := .ok (4 / 100000)
    unspentResult := .ok (some [{ tx_hash := "h1", tx_pos := 0, value := 1000 }])
    txResult := fun _ => .ok { vout := [{ scriptPubKeyHex := "spk" }] } }

/-- Oracle where the whole unspent set (1000 sats) is smaller than the
requested amount: insufficiency is detected already at the zero-fee pass. -/
def envPoor : Env :=
  { envBase with
    unspentResult := .ok (some [{ tx_hash := "h1", tx_pos := 0, value := 1000 }])
    txResult := fun _ => .ok { vout := [{ scriptPubKeyHex := "spk" }] } }

/-
Helper lemmas.
-/

theorem ceilInt_eq (q : Rat) : ceilInt q = ⌈q⌉ := by
  unfold ceilInt
  rw [Int.floor_neg, neg_neg]

theorem stateBytes_length (s : Sha256State) : (stateBytes s).length = 32 := by
  simp [stateBytes, wordBytes]

theorem sha256_length (m : List Nat) : (sha256 m).length = 32 := by
  unfold sha256
  exact stateBytes_length _

theorem wordBytes_lt (w : Nat) : ∀ x ∈ wordBytes w, x < 256 := by
  intro x hx
  simp only [wordBytes, List.mem_cons, List.not_mem_nil, or_false] at hx
  rcases hx with rfl | rfl | rfl | rfl <;> exact Nat.mod_lt _ (by norm_num)

theorem stateBytes_lt (s : Sha256State) : ∀ x ∈ stateBytes s, x < 256 := by
  intro x hx
  simp only [stateBytes, List.mem_append] at hx
  rcases hx with ((((((h | h) | h) | h) | h) | h) | h) | h <;> exact wordBytes_lt _ _ h

theorem sha256_lt (m : List Nat) : ∀ x ∈ sha256 m, x < 256 := by
  unfold sha256
  exact stateBytes_lt _

theorem hexChars_length (bs : List Nat) : ((bs.map byteHex).flatten).length = 2 * bs.length := by
  induction bs with
  | nil => simp
  | cons b rest ih =>
    simp only [List.map_cons, List.flatten_cons, List.length_append, ih, byteHex,
      List.length_cons, List.length_nil, List.length_map]
    omega

theorem bytesToHex_length (bs : List Nat) : (bytesToHex bs).length = 2 * bs.length := by
  unfold bytesToHex
  show ((bs.map byteHex).flatten).length = 2 * bs.length
  exact hexChars_length bs

theorem hexDigitChar_mem (n : Nat) (h : n < 16) : isHexLowerChar (hexDigitChar n) := by
  interval_cases n <;> decide

theorem byteHex_mem (b : Nat) (hb : b < 256) : ∀ c ∈ byteHex b, isHexLowerChar c := by
  intro c hc
  simp only [byteHex, List.mem_cons, List.not_mem_nil, or_false] at hc
  rcases hc with rfl | rfl
  · exact hexDigitChar_mem _ (by omega)
  · exact hexDigitChar_mem _ (Nat.mod_lt _ (by norm_num))

theorem bytesToHex_mem (bs : List Nat) (hb : ∀ b ∈ bs, b < 256) :
    ∀ c ∈ (bytesToHex bs).data, isHexLowerChar c := by
  intro c hc
  have hc2 : c ∈ (bs.map byteHex).flatten := hc
  simp only [List.mem_flatten, List.mem_map] at hc2
  obtain ⟨l, ⟨b, hbmem, rfl⟩, hcl⟩ := hc2
  exact byteHex_mem b (hb b hbmem) c hcl

/-- C8: `getScriptHash` is a pure function of the address (equal addresses
give equal results, and there is no effectful input); for every address the
external encoder accepts, the result is the byte-reversed SHA-256 digest of
the output script in lower-case hex, and is exactly 64 hex characters. -/
theorem claim8_getScriptHash (toOutputScript : String → Option (List Nat))
    (a b : String) (s : List Nat) :
    (a = b → getScriptHash toOutputScript a = getScriptHash toOutputScript b) ∧
    (toOutputScript a = some s →
      getScriptHash toOutputScript a = some (bytesToHex (sha256 s).reverse) ∧
      ∀ hsh, getScriptHash toOutputScript a = some hsh →
        hsh.length = 64 ∧ ∀ c ∈ hsh.data, isHexLowerChar c) := by
  constructor
  · intro hab
    rw [hab]
  · intro ha
    have hmain : getScriptHash toOutputScript a = some (bytesToHex (sha256 s).reverse) := by
      unfold getScriptHash
      rw [ha]
      rfl
    refine ⟨hmain, ?_⟩
    intro hsh hh
    rw [hmain] at hh
    injection hh with hh
    subst hh
    constructor
    · rw [bytesToHex_length, List.length_reverse, sha256_length]
    · refine bytesToHex_mem _ ?_
      intro x hx
      exact sha256_lt s x (List.mem_reverse.mp hx)

/-- C8 witness: a concrete encoder and address. -/
theorem claim8_witness :
    getScriptHash (fun _ => some ([] : List Nat)) "addr" =
      some (bytesToHex (sha256 []).reverse) :=
  ((claim8_getScriptHash (fun _ => some ([] : List Nat)) "addr" "addr" []).2 rfl).1

/-- C9: `verify` recomputes the SHA-256 hash of the UTF-8 message bytes and
checks the (forgivingly) decoded base64 signature against the key material;
its result is a boolean, `false` whenever the underlying check throws, so it
never throws itself. -/
theorem claim9_verify (bip32Verify : List Nat → List Nat → Except String Bool)
    (m s : String) :
    verifyRaw bip32Verify m s = bip32Verify (sha256 (utf8Bytes m)) (base64Decode s) ∧
    (∀ e, verifyRaw bip32Verify m s = .error e → verify bip32Verify m s = false) ∧
    (∀ b, verifyRaw bip32Verify m s = .ok b → verify bip32Verify m s = b) := by
  refine ⟨rfl, ?_, ?_⟩
  · intro e he
    unfold verify
    rw [he]
  · intro b hb
    unfold verify
    rw [hb]

/-- C9 witness: a bip32 collaborator that throws (malformed signature) makes
`verify` return false. -/
theorem claim9_witness :
    verify (fun _ _ => Except.error "Expected Signature") "hello" "%%%not-base64%%%" = false :=
  (claim9_verify (fun _ _ => Except.error "Expected Signature") "hello" "%%%not-base64%%%").2.1
    "Expected Signature" rfl

/-- C7 counterexample: a response whose id is 0 matches a pending entry with
key 0, yet `handleResponse` leaves the table unchanged and settles nothing,
because the JavaScript guard `response.id && ...` treats 0 as falsy. -/
theorem claim7_counterexample :
    handleResponse ⟨some 0, none, (42 : Nat)⟩ [((0 : Int), (7 : Nat))] =
      ([((0 : Int), (7 : Nat))], none) ∧
    findPending (0 : Int) [((0 : Int), (7 : Nat))] = some 7 :=
  ⟨rfl, rfl⟩

/-- C7 (amended): a response settles and removes the matching pending entry
when its id is nonzero; responses with an absent id, a zero id, or an id
matching no entry are ignored and leave the table unchanged. -/
theorem claim7_handleResponse {κ ρ : Type} (r : RpcResponse ρ) (pending : List (Int × κ)) :
    (r.id = none → handleResponse r pending = (pending, none)) ∧
    (r.id = some 0 → handleResponse r pending = (pending, none)) ∧
    (∀ i, r.id = some i → i ≠ 0 → findPending i pending = none →
      handleResponse r pending = (pending, none)) ∧
    (∀ i h, r.id = some i → i ≠ 0 → findPending i pending = some h →
      handleResponse r pending =
        (removePending i pending,
         some (h, match r.error with
                  | some msg => Settlement.rejected msg
                  | none => Settlement.resolved r.result))) := by
  refine ⟨?_, ?_, ?_, ?_⟩
  · intro h0
    simp [handleResponse, h0]
  · intro h0
    simp [handleResponse, h0]
  · intro i hi hne hfind
    simp [handleResponse, hi, hne, hfind]
  · intro i h hi hne hfind
    rcases hre : r.error with _ | msg <;>
      simp [handleResponse, hi, hne, hfind, hre]

/-- C7 witness: a nonzero-id response settles its pending entry. -/
theorem claim7_witness :
    handleResponse ⟨some 5, none, (42 : Nat)⟩ [((5 : Int), (7 : Nat))] =
      ([], some (7, Settlement.resolved 42)) := by
  have h := (claim7_handleResponse ⟨some 5, none, (42 : Nat)⟩ [((5 : Int), (7 : Nat))]).2.2.2
    5 7 rfl (by decide) rfl
  simpa using h

theorem createPsbt_ok_inv {self : Account} {us : List CollectedUtxo} {A T : Int}
    {recip : String} {p : Nat} {fee : Int} {evs : List Event} {d : Draft}
    (h : createPsbt self us A T recip p fee = (evs, .ok d)) :
    ∃ ins, buildInputs us = .ok ins ∧ 0 ≤ T - A - fee ∧
      evs = signEvents p us.length ∧
      d = { inputs := ins,
            outputs := { address := recip, value := A } ::
              (if T - A - fee > DUST_LIMIT
               then [{ address := self.address, value := T - A - fee }] else []) } := by
  unfold createPsbt at h
  split at h
  · simp at h
  · rename_i ins hb
    dsimp only at h
    split at h
    · rename_i h1
      rw [Prod.mk.injEq] at h
      obtain ⟨he, hd⟩ := h
      injection hd with hd
      refine ⟨ins, hb, by unfold DUST_LIMIT at h1; omega, he.symm, ?_⟩
      rw [if_pos h1, ← hd]
    · split at h
      · simp at h
      · rename_i h1 h2
        rw [Prod.mk.injEq] at h
        obtain ⟨he, hd⟩ := h
        injection hd with hd
        refine ⟨ins, hb, by omega, he.symm, ?_⟩
        rw [if_neg h1, ← hd]

theorem createPsbt_insufficient {self : Account} {us : List CollectedUtxo}
    {A T : Int} {recip : String} {p : Nat} {fee : Int} (ins : List PsbtInput)
    (hb : buildInputs us = .ok ins) (hneg : T - A - fee < 0) :
    createPsbt self us A T recip p fee = ([], .error "Insufficient balance.") := by
  unfold createPsbt
  rw [hb]
  dsimp only
  rw [if_neg (by unfold DUST_LIMIT; omega), if_pos hneg]

theorem generateRawTx_ok_inv {env : Env} {self : Account} {us : List CollectedUtxo}
    {A : Int} {recip : String} {rate : Rat} {evs : List Event} {r : TxResult}
    (h : generateRawTx env self us A recip rate = (evs, .ok r)) :
    DUST_LIMIT < A ∧
    ∃ ins d0, buildInputs us = .ok ins ∧
      zeroFeeDraft self us A recip = .ok d0 ∧
      0 ≤ totalInputOf us - A ∧
      r.fee = computeFee rate (env.vsizeOf d0) ∧
      0 ≤ totalInputOf us - A - r.fee ∧
      r.txid = env.idOf r.draft ∧ r.hex = env.hexOf r.draft ∧
      r.draft = { inputs := ins,
                  outputs := { address := recip, value := A } ::
                    (if totalInputOf us - A - r.fee > DUST_LIMIT
                     then [{ address := self.address, value := totalInputOf us - A - r.fee }]
                     else []) } ∧
      evs = signEvents 0 us.length ++ signEvents 1 us.length := by
  unfold generateRawTx at h
  split at h
  · simp at h
  · rename_i hdust
    try dsimp only at h
    split at h
    · simp at h
    · rename_i evs0 draft0 hcp0
      try dsimp only at h
      split at h
      · simp at h
      · rename_i evs1 draft1 hcp1
        rw [Prod.mk.injEq] at h
        obtain ⟨he, hr⟩ := h
        injection hr with hr
        obtain ⟨ins0, hb0, hnn0, hevs0, hd0⟩ := createPsbt_ok_inv hcp0
        obtain ⟨ins1, hb1, hnn1, hevs1, hd1⟩ := createPsbt_ok_inv hcp1
        have hins : ins1 = ins0 := by rw [hb0] at hb1; injection hb1 with hb1; exact hb1.symm
        subst hr
        refine ⟨by omega, ins0, draft0, hb0, ?_, by omega, rfl, ?_, rfl, rfl, ?_, ?_⟩
        · unfold zeroFeeDraft
          rw [hcp0]
        · simpa using hnn1
        · simpa [hins] using hd1
        · rw [← he, hevs0, hevs1]

theorem collectLoop_events (env : Env) (amount : Int) :
    ∀ (us : List Utxo) (total : Int),
      ∀ e ∈ (collectLoop env amount us total).1, ∃ hx, e = Event.getTx hx := by
  intro us
  induction us with
  | nil => intro total e he; simp [collectLoop] at he
  | cons u rest ih =>
    intro total e he
    unfold collectLoop at he
    split at he
    · simp at he
      exact ⟨u.tx_hash, he⟩
    · dsimp only at he
      split at he
      · simp at he
        exact ⟨u.tx_hash, he⟩
      · split at he
        · rename_i evs er hloop
          simp at he
          rcases he with rfl | he
          · exact ⟨u.tx_hash, rfl⟩
          · have := ih (total + u.value) e
            rw [hloop] at this
            exact this he
        · rename_i evs items hloop
          simp at he
          rcases he with rfl | he
          · exact ⟨u.tx_hash, rfl⟩
          · have := ih (total + u.value) e
            rw [hloop] at this
            exact this he

theorem collectUtxos_events (env : Env) (amount : Int) (address : String) :
    ∀ e ∈ (collectUtxos env amount address).1,
      e = Event.getUnspent address ∨ ∃ hx, e = Event.getTx hx := by
  intro e he
  unfold collectUtxos at he
  rcases hres : env.unspentResult with eMsg | op
  · rw [hres] at he
    simp at he
    exact Or.inl he
  · rcases op with _ | us
    · rw [hres] at he
      simp at he
      exact Or.inl he
    · rcases us with _ | ⟨u, rest⟩
      · rw [hres] at he
        simp at he
        exact Or.inl he
      · rw [hres] at he
        dsimp only at he
        rcases hloop : collectLoop env amount (u :: rest) 0 with ⟨evs, r⟩
        rw [hloop] at he
        simp at he
        rcases he with rfl | he
        · exact Or.inl rfl
        · refine Or.inr ?_
          have h2 := collectLoop_events env amount (u :: rest) 0 e
          rw [hloop] at h2
          exact h2 he

theorem envOkPipe_collect (A : Int) (hA : A ≤ 5000) :
    collectUtxos envOkPipe A "addr-self" =
      ([.getUnspent "addr-self", .getTx "h1"],
       .ok [{ utxo := { tx_hash := "h1", tx_pos := 0, value := 5000 },
              vout := some { scriptPubKeyHex := "spk" } }]) := by
  have h1 : envOkPipe.unspentResult =
      .ok (some [{ tx_hash := "h1", tx_pos := 0, value := 5000 }]) := rfl
  unfold collectUtxos
  rw [h1]
  dsimp only
  unfold collectLoop
  have h2 : envOkPipe.txResult "h1" = .ok { vout := [{ scriptPubKeyHex := "spk" }] } := rfl
  rw [h2]
  dsimp only
  rw [if_pos (show (0:Int) + 5000 ≥ A by omega)]
  rfl

theorem envPoor_collect :
    collectUtxos envPoor 2000 "addr-self" =
      ([.getUnspent "addr-self", .getTx "h1"],
       .ok [{ utxo := { tx_hash := "h1", tx_pos := 0, value := 1000 },
              vout := some { scriptPubKeyHex := "spk" } }]) := by
  have h1 : envPoor.unspentResult =
      .ok (some [{ tx_hash := "h1", tx_pos := 0, value := 1000 }]) := rfl
  unfold collectUtxos
  rw [h1]
  dsimp only
  unfold collectLoop
  have h2 : envPoor.txResult "h1" = .ok { vout := [{ scriptPubKeyHex := "spk" }] } := rfl
  rw [h2]
  dsimp only
  rw [if_neg (show ¬ ((0:Int) + 1000 ≥ 2000) by omega)]
  unfold collectLoop
  rfl

/-- C2: on every completed assembly, the final fee is
max(ceil(feeRate times the measured virtual size of the zero-fee draft), 141),
with feeRate the server estimate scaled by 100000; in particular it is at
least 141 satoshis. -/
theorem claim2_fee_formula (env : Env) (self : Account) (A : Int) (recip : String)
    (evs : List Event) (r : TxResult)
    (h : createTransaction env self A recip = (evs, .ok r)) :
    ∃ est cs d0,
      env.feeEstimateResult = .ok est ∧
      (collectUtxos env A self.address).2 = .ok cs ∧
      zeroFeeDraft self cs A recip = .ok d0 ∧
      r.fee = max ⌈est * 100000 * (env.vsizeOf d0 : Rat)⌉ 141 ∧
      141 ≤ r.fee := by
  unfold createTransaction at h
  rcases hest : env.feeEstimateResult with eMsg | est
  · rw [hest] at h
    simp at h
  · rw [hest] at h
    dsimp only at h
    rcases hcol : collectUtxos env A self.address with ⟨evsU, rc⟩
    rw [hcol] at h
    rcases rc with eMsg | cs
    · simp at h
    · dsimp only at h
      rcases hg : generateRawTx env self cs A recip (est * 100000) with ⟨evsG, rg⟩
      rw [hg] at h
      dsimp only at h
      rw [Prod.mk.injEq] at h
      obtain ⟨hevs, hr⟩ := h
      rcases rg with e2 | r2
      · simp at hr
      · injection hr with hr
        subst hr
        obtain ⟨hdust, ins, d0, hb, hd0, hTA, hfee, hrest⟩ := generateRawTx_ok_inv hg
        refine ⟨est, cs, d0, rfl, rfl, hd0, ?_, ?_⟩
        · rw [hfee]
          unfold computeFee
          rw [ceilInt_eq]
        · rw [hfee]
          exact le_max_right _ _

/-- C3: in every completed assembly with input total T, send amount A and
final fee F, a change output valued T - A - F paid to the account's own
address is present exactly when T - A - F exceeds the 546-satoshi dust
limit; when 0 <= T - A - F <= 546 the transaction has exactly the one
recipient output and the leftover is left to the fee. -/
theorem claim3_change_policy (env : Env) (self : Account) (us : List CollectedUtxo)
    (A : Int) (recip : String) (rate : Rat) (evs : List Event) (r : TxResult)
    (h : generateRawTx env self us A recip rate = (evs, .ok r)) :
    0 ≤ totalInputOf us - A - r.fee ∧
    (totalInputOf us - A - r.fee > DUST_LIMIT →
      r.draft.outputs = [{ address := recip, value := A },
                         { address := self.address, value := totalInputOf us - A - r.fee }]) ∧
    (totalInputOf us - A - r.fee ≤ DUST_LIMIT →
      r.draft.outputs = [{ address := recip, value := A }]) ∧
    (r.draft.outputs.length = 2 ↔ totalInputOf us - A - r.fee > DUST_LIMIT) ∧
    (r.draft.outputs.length = 1 ↔ totalInputOf us - A - r.fee ≤ DUST_LIMIT) := by
  obtain ⟨hdust, ins, d0, hb, hd0, hTA, hfee, hnn, htx, hhex, hdraft, hevs⟩ :=
    generateRawTx_ok_inv h
  refine ⟨hnn, ?_, ?_, ?_, ?_⟩
  · intro hc
    rw [hdraft]
    simp [if_pos hc]
  · intro hc
    rw [hdraft]
    simp [if_neg (by omega : ¬ totalInputOf us - A - r.fee > DUST_LIMIT)]
  · rw [hdraft]
    by_cases hc : totalInputOf us - A - r.fee > DUST_LIMIT
    · simp [if_pos hc, hc]
    · simp [if_neg hc]
      omega
  · rw [hdraft]
    by_cases hc : totalInputOf us - A - r.fee > DUST_LIMIT
    · simp [if_pos hc]
      omega
    · simp [if_neg hc]
      omega

theorem envOkPipe_createTransaction :
    createTransaction envOkPipe acctA 1000 "recip" =
      ([.estimateFee, .getUnspent "addr-self", .getTx "h1", .signInput 0 0, .signInput 1 0],
       .ok { txid := "txid0", hex := "rawhex0", fee := 141,
             draft := { inputs := [{ hash := "h1", index := 0,
                                     witnessScriptHex := "spk", value := 5000 }],
                        outputs := [{ address := "recip", value := 1000 },
                                    { address := "addr-self", value := 3859 }] } }) := by
  have hest : envOkPipe.feeEstimateResult = .ok 0 := rfl
  have hcol : collectUtxos envOkPipe 1000 acctA.address =
      ([.getUnspent "addr-self", .getTx "h1"],
       .ok [{ utxo := { tx_hash := "h1", tx_pos := 0, value := 5000 },
              vout := some { scriptPubKeyHex := "spk" } }]) :=
    envOkPipe_collect 1000 (by norm_num)
  unfold createTransaction
  rw [hest]
  dsimp only
  rw [hcol]
  dsimp only
  have hfee : computeFee ((0 : Rat) * 100000) 110 = 141 := by
    norm_num [computeFee, ceilInt]
  have hvs : ∀ d, envOkPipe.vsizeOf d = 110 := fun _ => rfl
  unfold generateRawTx
  rw [if_neg (show ¬ ((1000 : Int) ≤ DUST_LIMIT) by unfold DUST_LIMIT; omega)]
  dsimp only
  have htot : totalInputOf
      [{ utxo := { tx_hash := "h1", tx_pos := 0, value := 5000 },
         vout := some { scriptPubKeyHex := "spk" } }] = 5000 := by
    simp [totalInputOf]
  have hcp0 : createPsbt acctA
      [{ utxo := { tx_hash := "h1", tx_pos := 0, value := 5000 },
         vout := some { scriptPubKeyHex := "spk" } }] 1000
      (totalInputOf
        [{ utxo := { tx_hash := "h1", tx_pos := 0, value := 5000 },
           vout := some { scriptPubKeyHex := "spk" } }]) "recip" 0 0 =
      ([.signInput 0 0],
       .ok { inputs := [{ hash := "h1", index := 0, witnessScriptHex := "spk", value := 5000 }],
             outputs := [{ address := "recip", value := 1000 },
                         { address := "addr-self", value := 3999 + 1 }] }) := by
    rw [htot]
    unfold createPsbt
    have hb : buildInputs
        [{ utxo := { tx_hash := "h1", tx_pos := 0, value := 5000 },
           vout := some { scriptPubKeyHex := "spk" } }] =
        .ok [{ hash := "h1", index := 0, witnessScriptHex := "spk", value := 5000 }] := rfl
    rw [hb]
    dsimp only
    rw [if_pos (show (5000 : Int) - 1000 - 0 > DUST_LIMIT by unfold DUST_LIMIT; omega)]
    norm_num [signEvents, List.range_succ, acctA]
  rw [hcp0]
  dsimp only
  rw [hvs, hfee]
  have hcp1 : createPsbt acctA
      [{ utxo := { tx_hash := "h1", tx_pos := 0, value := 5000 },
         vout := some { scriptPubKeyHex := "spk" } }] 1000
      (totalInputOf
        [{ utxo := { tx_hash := "h1", tx_pos := 0, value := 5000 },
           vout := some { scriptPubKeyHex := "spk" } }]) "recip" 1 141 =
      ([.signInput 1 0],
       .ok { inputs := [{ hash := "h1", index := 0, witnessScriptHex := "spk", value := 5000 }],
             outputs := [{ address := "recip", value := 1000 },
                         { address := "addr-self", value := 3859 }] }) := by
    rw [htot]
    unfold createPsbt
    have hb : buildInputs
        [{ utxo := { tx_hash := "h1", tx_pos := 0, value := 5000 },
           vout := some { scriptPubKeyHex := "spk" } }] =
        .ok [{ hash := "h1", index := 0, witnessScriptHex := "spk", value := 5000 }] := rfl
    rw [hb]
    dsimp only
    rw [if_pos (show (5000 : Int) - 1000 - 141 > DUST_LIMIT by unfold DUST_LIMIT; omega)]
    norm_num [signEvents, List.range_succ, acctA]
  rw [hcp1]
  rfl

/-- C1 (code bug): on a fully successful pipeline, `sendTransaction` returns
only the bare transaction id string (line 251 `return tx.txid`), even though
`#generateRawTx` produced the full `{txid, hex}` pair; the documented
TransactionResult pair is never returned to the caller. -/
theorem claim1_send_returns_bare_txid :
    sendTransaction envOkPipe acctA (1 / 100000) "recip" =
      ([.estimateFee, .getUnspent "addr-self", .getTx "h1", .signInput 0 0, .signInput 1 0,
        .broadcast "rawhex0"], .ok "txid0") ∧
    (createTransaction envOkPipe acctA 1000 "recip").2 =
      .ok { txid := "txid0", hex := "rawhex0", fee := 141,
            draft := { inputs := [{ hash := "h1", index := 0,
                                    witnessScriptHex := "spk", value := 5000 }],
                       outputs := [{ address := "recip", value := 1000 },
                                   { address := "addr-self", value := 3859 }] } } := by
  constructor
  · have hsat : toSatoshi (1 / 100000 : Rat) = 1000 := by norm_num [toSatoshi, truncInt]
    unfold sendTransaction
    dsimp only
    rw [hsat, envOkPipe_createTransaction]
    rfl
  · rw [envOkPipe_createTransaction]

theorem singleUtxo_collect (env : Env) (v A : Int) (address : String)
    (h1 : env.unspentResult = .ok (some [{ tx_hash := "h1", tx_pos := 0, value := v }]))
    (h2 : env.txResult "h1" = .ok { vout := [{ scriptPubKeyHex := "spk" }] })
    (hge : 0 + v ≥ A) :
    collectUtxos env A address =
      ([.getUnspent address, .getTx "h1"],
       .ok [{ utxo := { tx_hash := "h1", tx_pos := 0, value := v },
              vout := some { scriptPubKeyHex := "spk" } }]) := by
  unfold collectUtxos
  rw [h1]
  dsimp only
  unfold collectLoop
  rw [h2]
  dsimp only
  rw [if_pos hge]
  rfl

/-- C4 counterexample: with a 1000-satoshi input, a 600-satoshi send and a
computed fee of 440 satoshis the call fails with the insufficient-balance
error, but only on the second assembly pass: the input of the zero-fee
measurement draft has already been signed when the failure occurs, so the
failure does not precede all signing. -/
theorem claim4_counterexample :
    sendTransaction envFeeShort acctA (6 / 1000000) "recip" =
      ([.estimateFee, .getUnspent "addr-self", .getTx "h1", .signInput 0 0],
       .error "Insufficient balance.") ∧
    Event.signInput 0 0 ∈ (sendTransaction envFeeShort acctA (6 / 1000000) "recip").1 := by
  have hsat : toSatoshi (6 / 1000000 : Rat) = 600 := by norm_num [toSatoshi, truncInt]
  have hest : envFeeShort.feeEstimateResult = .ok (4 / 100000) := rfl
  have hcol : collectUtxos envFeeShort 600 acctA.address =
      ([.getUnspent "addr-self", .getTx "h1"],
       .ok [{ utxo := { tx_hash := "h1", tx_pos := 0, value := 1000 },
              vout := some { scriptPubKeyHex := "spk" } }]) :=
    singleUtxo_collect envFeeShort 1000 600 "addr-self" rfl rfl (by norm_num)
  have htot : totalInputOf
      [{ utxo := { tx_hash := "h1", tx_pos := 0, value := 1000 },
         vout := some { scriptPubKeyHex := "spk" } }] = 1000 := by
    simp [totalInputOf]
  have hb : buildInputs
      [{ utxo := { tx_hash := "h1", tx_pos := 0, value := 1000 },
         vout := some { scriptPubKeyHex := "spk" } }] =
      .ok [{ hash := "h1", index := 0, witnessScriptHex := "spk", value := 1000 }] := rfl
  have hfee : computeFee ((4 / 100000 : Rat) * 100000) 110 = 440 := by
    norm_num [computeFee, ceilInt]
  have hmain : sendTransaction envFeeShort acctA (6 / 1000000) "recip" =
      ([.estimateFee, .getUnspent "addr-self", .getTx "h1", .signInput 0 0],
       .error "Insufficient balance.") := by
    unfold sendTransaction
    dsimp only
    rw [hsat]
    unfold createTransaction
    rw [hest]
    dsimp only
    rw [hcol]
    dsimp only
    unfold generateRawTx
    rw [if_neg (show ¬ ((600 : Int) ≤ DUST_LIMIT) by unfold DUST_LIMIT; omega)]
    dsimp only
    have hcp0 : createPsbt acctA
        [{ utxo := { tx_hash := "h1", tx_pos := 0, value := 1000 },
           vout := some { scriptPubKeyHex := "spk" } }] 600
        (totalInputOf
          [{ utxo := { tx_hash := "h1", tx_pos := 0, value := 1000 },
             vout := some { scriptPubKeyHex := "spk" } }]) "recip" 0 0 =
        ([.signInput 0 0],
         .ok { inputs := [{ hash := "h1", index := 0, witnessScriptHex := "spk", value := 1000 }],
               outputs := [{ address := "recip", value := 600 }] }) := by
      rw [htot]
      unfold createPsbt
      rw [hb]
      dsimp only
      rw [if_neg (show ¬ ((1000 : Int) - 600 - 0 > DUST_LIMIT) by unfold DUST_LIMIT; omega)]
      rw [if_neg (show ¬ ((1000 : Int) - 600 - 0 < 0) by omega)]
      norm_num [signEvents, List.range_succ]
    rw [hcp0]
    dsimp only
    have hvs : ∀ d, envFeeShort.vsizeOf d = 110 := fun _ => rfl
    rw [hvs, hfee]
    rw [createPsbt_insufficient
      (T := totalInputOf
        [{ utxo := { tx_hash := "h1", tx_pos := 0, value := 1000 },
           vout := some { scriptPubKeyHex := "spk" } }])
      _ hb (by rw [htot]; norm_num)]
    rfl
  exact ⟨hmain, by rw [hmain]; simp⟩

theorem signEvents_shape (p n : Nat) :
    ∀ e ∈ signEvents p n, ∃ i, e = Event.signInput p i := by
  intro e he
  simp only [signEvents, List.mem_map, List.mem_range] at he
  obtain ⟨i, _, rfl⟩ := he
  exact ⟨i, rfl⟩

/-- C4 (amended): whenever the collected input total minus the send amount
minus the computed fee is negative, the call fails with the
insufficient-balance error and no broadcast request is ever issued; when the
input total is below the send amount alone (in particular when the request
exceeds the whole unspent set) the failure also precedes all signing, but
when only the fee makes the balance insufficient, the inputs of the zero-fee
measurement draft have already been signed when the failure occurs. -/
theorem claim4_insufficient (env : Env) (self : Account) (amount : Rat) (toAddr : String)
    (est : Rat) (evsU : List Event) (cs : List CollectedUtxo) (ins : List PsbtInput)
    (hest : env.feeEstimateResult = .ok est)
    (hcol : collectUtxos env (toSatoshi amount) self.address = (evsU, .ok cs))
    (hins : buildInputs cs = .ok ins)
    (hdust : DUST_LIMIT < toSatoshi amount) :
    (totalInputOf cs - toSatoshi amount < 0 →
      (sendTransaction env self amount toAddr).2 = .error "Insufficient balance." ∧
      (∀ p i, Event.signInput p i ∉ (sendTransaction env self amount toAddr).1) ∧
      (∀ hx, Event.broadcast hx ∉ (sendTransaction env self amount toAddr).1)) ∧
    (∀ d0, zeroFeeDraft self cs (toSatoshi amount) toAddr = .ok d0 →
      totalInputOf cs - toSatoshi amount - computeFee (est * 100000) (env.vsizeOf d0) < 0 →
      (sendTransaction env self amount toAddr).2 = .error "Insufficient balance." ∧
      (∀ hx, Event.broadcast hx ∉ (sendTransaction env self amount toAddr).1)) := by
  have hevtsU : ∀ e ∈ evsU, e = Event.getUnspent self.address ∨ ∃ hx, e = Event.getTx hx := by
    intro e he
    have h2 := collectUtxos_events env (toSatoshi amount) self.address e
    rw [hcol] at h2
    exact h2 he
  constructor
  · intro hneg
    have hgen : generateRawTx env self cs (toSatoshi amount) toAddr (est * 100000) =
        ([], .error "Insufficient balance.") := by
      unfold generateRawTx
      rw [if_neg (by omega : ¬ toSatoshi amount ≤ DUST_LIMIT)]
      dsimp only
      rw [createPsbt_insufficient _ hins (by omega)]
    have hsend : sendTransaction env self amount toAddr =
        (Event.estimateFee :: (evsU ++ []), .error "Insufficient balance.") := by
      unfold sendTransaction
      dsimp only
      unfold createTransaction
      rw [hest]
      dsimp only
      rw [hcol]
      dsimp only
      rw [hgen]
    rw [hsend]
    refine ⟨rfl, ?_, ?_⟩
    · intro p i hmem
      simp only [List.mem_cons, List.append_nil] at hmem
      rcases hmem with hmem | hmem
      · exact absurd hmem (by simp)
      · rcases hevtsU _ hmem with h | ⟨hx, h⟩ <;> simp at h
    · intro hx hmem
      simp only [List.mem_cons, List.append_nil] at hmem
      rcases hmem with hmem | hmem
      · exact absurd hmem (by simp)
      · rcases hevtsU _ hmem with h | ⟨hy, h⟩ <;> simp at h
  · intro d0 hzf hneg
    rcases hcp0p : createPsbt self cs (toSatoshi amount) (totalInputOf cs) toAddr 0 0
      with ⟨evs0, r0⟩
    have hr0 : r0 = .ok d0 := by
      unfold zeroFeeDraft at hzf
      rw [hcp0p] at hzf
      exact hzf
    subst hr0
    obtain ⟨ins0, hb0, hnn0, hevs0, hd0⟩ := createPsbt_ok_inv hcp0p
    have hgen : generateRawTx env self cs (toSatoshi amount) toAddr (est * 100000) =
        (evs0 ++ [], .error "Insufficient balance.") := by
      unfold generateRawTx
      rw [if_neg (by omega : ¬ toSatoshi amount ≤ DUST_LIMIT)]
      dsimp only
      rw [hcp0p]
      dsimp only
      rw [createPsbt_insufficient _ hins hneg]
    have hsend : sendTransaction env self amount toAddr =
        (Event.estimateFee :: (evsU ++ (evs0 ++ [])), .error "Insufficient balance.") := by
      unfold sendTransaction
      dsimp only
      unfold createTransaction
      rw [hest]
      dsimp only
      rw [hcol]
      dsimp only
      rw [hgen]
    rw [hsend]
    refine ⟨rfl, ?_⟩
    intro hx hmem
    simp only [List.mem_cons, List.append_nil, List.mem_append] at hmem
    rcases hmem with hmem | hmem | hmem
    · exact absurd hmem (by simp)
    · rcases hevtsU _ hmem with h | ⟨hy, h⟩ <;> simp at h
    · rw [hevs0] at hmem
      obtain ⟨i, h⟩ := signEvents_shape _ _ _ hmem
      simp at h

/-- C4 witness: requesting 2000 satoshis against a single 1000-satoshi
unspent output fails with the insufficient-balance error, with no signing
and no broadcast. -/
theorem claim4_witness :
    (sendTransaction envPoor acctA (2 / 100000) "recip").2 = .error "Insufficient balance." ∧
    Event.signInput 0 0 ∉ (sendTransaction envPoor acctA (2 / 100000) "recip").1 ∧
    Event.broadcast "rawhex0" ∉ (sendTransaction envPoor acctA (2 / 100000) "recip").1 := by
  have hsat : toSatoshi (2 / 100000 : Rat) = 2000 := by norm_num [toSatoshi, truncInt]
  have hcol : collectUtxos envPoor (toSatoshi (2 / 100000 : Rat)) acctA.address =
      ([.getUnspent "addr-self", .getTx "h1"],
       .ok [{ utxo := { tx_hash := "h1", tx_pos := 0, value := 1000 },
              vout := some { scriptPubKeyHex := "spk" } }]) := by
    rw [hsat]
    exact envPoor_collect
  have h := (claim4_insufficient envPoor acctA (2 / 100000) "recip" 0
    [.getUnspent "addr-self", .getTx "h1"]
    [{ utxo := { tx_hash := "h1", tx_pos := 0, value := 1000 },
       vout := some { scriptPubKeyHex := "spk" } }]
    [{ hash := "h1", index := 0, witnessScriptHex := "spk", value := 1000 }]
    rfl hcol rfl
    (by rw [hsat]; unfold DUST_LIMIT; omega)).1
    (by rw [hsat]; simp [totalInputOf])
  exact ⟨h.1, h.2.1 0 0, h.2.2 "rawhex0"⟩

theorem collectUtxos_head (env : Env) (amount : Int) (address : String) :
    ∃ t, (collectUtxos env amount address).1 = Event.getUnspent address :: t := by
  unfold collectUtxos
  rcases env.unspentResult with e | op
  · exact ⟨[], rfl⟩
  · rcases op with _ | us
    · exact ⟨[], rfl⟩
    · rcases us with _ | ⟨u, rest⟩
      · exact ⟨[], rfl⟩
      · dsimp only
        rcases collectLoop env amount (u :: rest) 0 with ⟨evs, r⟩
        exact ⟨evs, rfl⟩

/-- C6 (amended): a send amount at or below the dust limit is rejected with
the dust error during assembly — before any signing and before any broadcast
— but only after the fee-estimate request and the unspent-set fetch (and any
parent-transaction fetches of the collection loop) have already been issued. -/
theorem claim6_dust (env : Env) (self : Account) (amount : Rat) (toAddr : String)
    (est : Rat) (evsU : List Event) (cs : List CollectedUtxo)
    (hest : env.feeEstimateResult = .ok est)
    (hcol : collectUtxos env (toSatoshi amount) self.address = (evsU, .ok cs))
    (hdust : toSatoshi amount ≤ DUST_LIMIT) :
    (sendTransaction env self amount toAddr).2 =
      .error ("send amount must be bigger than dust limit " ++ toString DUST_LIMIT ++
        " got: " ++ toString (toSatoshi amount)) ∧
    Event.estimateFee ∈ (sendTransaction env self amount toAddr).1 ∧
    Event.getUnspent self.address ∈ (sendTransaction env self amount toAddr).1 ∧
    (∀ p i, Event.signInput p i ∉ (sendTransaction env self amount toAddr).1) ∧
    (∀ hx, Event.broadcast hx ∉ (sendTransaction env self amount toAddr).1) := by
  have hevtsU : ∀ e ∈ evsU, e = Event.getUnspent self.address ∨ ∃ hx, e = Event.getTx hx := by
    intro e he
    have h2 := collectUtxos_events env (toSatoshi amount) self.address e
    rw [hcol] at h2
    exact h2 he
  have hhead : ∃ t, evsU = Event.getUnspent self.address :: t := by
    obtain ⟨t, ht⟩ := collectUtxos_head env (toSatoshi amount) self.address
    rw [hcol] at ht
    exact ⟨t, ht⟩
  have hgen : generateRawTx env self cs (toSatoshi amount) toAddr (est * 100000) =
      ([], .error ("send amount must be bigger than dust limit " ++ toString DUST_LIMIT ++
        " got: " ++ toString (toSatoshi amount))) := by
    unfold generateRawTx
    rw [if_pos hdust]
  have hsend : sendTransaction env self amount toAddr =
      (Event.estimateFee :: (evsU ++ []),
       .error ("send amount must be bigger than dust limit " ++ toString DUST_LIMIT ++
        " got: " ++ toString (toSatoshi amount))) := by
    unfold sendTransaction
    dsimp only
    unfold createTransaction
    rw [hest]
    dsimp only
    rw [hcol]
    dsimp only
    rw [hgen]
  rw [hsend]
  refine ⟨rfl, by simp, ?_, ?_, ?_⟩
  · obtain ⟨t, ht⟩ := hhead
    rw [ht]
    simp
  · intro p i hmem
    simp only [List.mem_cons, List.append_nil] at hmem
    rcases hmem with hmem | hmem
    · exact absurd hmem (by simp)
    · rcases hevtsU _ hmem with h | ⟨hy, h⟩ <;> simp at h
  · intro hx hmem
    simp only [List.mem_cons, List.append_nil] at hmem
    rcases hmem with hmem | hmem
    · exact absurd hmem (by simp)
    · rcases hevtsU _ hmem with h | ⟨hy, h⟩ <;> simp at h

/-- C6 counterexample: a 100-satoshi request is rejected by the dust check,
yet the fee-estimate request, the unspent-set fetch and a parent-transaction
fetch were all issued before the rejection — contradicting the claim that
the dust validation precedes any network interaction. -/
theorem claim6_counterexample :
    sendTransaction envOkPipe acctA (1 / 1000000) "recip" =
      ([.estimateFee, .getUnspent "addr-self", .getTx "h1"],
       .error "send amount must be bigger than dust limit 546 got: 100") ∧
    Event.estimateFee ∈ (sendTransaction envOkPipe acctA (1 / 1000000) "recip").1 ∧
    Event.getUnspent "addr-self" ∈ (sendTransaction envOkPipe acctA (1 / 1000000) "recip").1 ∧
    Event.getTx "h1" ∈ (sendTransaction envOkPipe acctA (1 / 1000000) "recip").1 := by
  have hsat : toSatoshi (1 / 1000000 : Rat) = 100 := by norm_num [toSatoshi, truncInt]
  have hcol : collectUtxos envOkPipe (toSatoshi (1 / 1000000 : Rat)) acctA.address =
      ([.getUnspent "addr-self", .getTx "h1"],
       .ok [{ utxo := { tx_hash := "h1", tx_pos := 0, value := 5000 },
              vout := some { scriptPubKeyHex := "spk" } }]) := by
    rw [hsat]
    exact singleUtxo_collect envOkPipe 5000 100 "addr-self" rfl rfl (by norm_num)
  have hmain : sendTransaction envOkPipe acctA (1 / 1000000) "recip" =
      ([.estimateFee, .getUnspent "addr-self", .getTx "h1"],
       .error "send amount must be bigger than dust limit 546 got: 100") := by
    unfold sendTransaction
    dsimp only
    unfold createTransaction
    rw [show envOkPipe.feeEstimateResult = .ok 0 from rfl]
    dsimp only
    rw [hcol]
    dsimp only
    unfold generateRawTx
    rw [hsat, if_pos (show (100 : Int) ≤ DUST_LIMIT by unfold DUST_LIMIT; omega)]
    rfl
  exact ⟨hmain, by rw [hmain]; simp, by rw [hmain]; simp, by rw [hmain]; simp⟩

/-- C6 witness: instantiating the amended dust-ordering theorem at the
concrete 100-satoshi call. -/
theorem claim6_witness :
    (sendTransaction envOkPipe acctA (1 / 1000000) "recip").2 =
      .error ("send amount must be bigger than dust limit " ++ toString DUST_LIMIT ++
        " got: " ++ toString (toSatoshi (1 / 1000000 : Rat))) ∧
    Event.estimateFee ∈ (sendTransaction envOkPipe acctA (1 / 1000000) "recip").1 ∧
    Event.signInput 0 0 ∉ (sendTransaction envOkPipe acctA (1 / 1000000) "recip").1 := by
  have hsat : toSatoshi (1 / 1000000 : Rat) = 100 := by norm_num [toSatoshi, truncInt]
  have hcol : collectUtxos envOkPipe (toSatoshi (1 / 1000000 : Rat)) acctA.address =
      ([.getUnspent "addr-self", .getTx "h1"],
       .ok [{ utxo := { tx_hash := "h1", tx_pos := 0, value := 5000 },
              vout := some { scriptPubKeyHex := "spk" } }]) := by
    rw [hsat]
    exact singleUtxo_collect envOkPipe 5000 100 "addr-self" rfl rfl (by norm_num)
  have h := claim6_dust envOkPipe acctA (1 / 1000000) "recip" 0
    [.getUnspent "addr-self", .getTx "h1"]
    [{ utxo := { tx_hash := "h1", tx_pos := 0, value := 5000 },
       vout := some { scriptPubKeyHex := "spk" } }]
    rfl hcol (by rw [hsat]; unfold DUST_LIMIT; omega)
  exact ⟨h.1, h.2.1, h.2.2.2.1 0 0⟩

theorem createTransaction_ok_inv {env : Env} {self : Account} {A : Int}
    {recip : String} {evs : List Event} {r : TxResult}
    (h : createTransaction env self A recip = (evs, .ok r)) :
    ∃ est cs evsG, env.feeEstimateResult = .ok est ∧
      (collectUtxos env A self.address).2 = .ok cs ∧
      generateRawTx env self cs A recip (est * 100000) = (evsG, .ok r) := by
  unfold createTransaction at h
  rcases hest : env.feeEstimateResult with eMsg | est
  · rw [hest] at h
    simp at h
  · rw [hest] at h
    dsimp only at h
    rcases hcol : collectUtxos env A self.address with ⟨evsU, rc⟩
    rw [hcol] at h
    rcases rc with eMsg | cs
    · simp at h
    · dsimp only at h
      rcases hg : generateRawTx env self cs A recip (est * 100000) with ⟨evsG, rg⟩
      rw [hg] at h
      dsimp only at h
      rw [Prod.mk.injEq] at h
      obtain ⟨hevs, hr⟩ := h
      rcases rg with e2 | r2
      · simp at hr
      · injection hr with hr
        subst hr
        exact ⟨est, cs, evsG, rfl, rfl, hg⟩

/-- C10 counterexample: BigNumber.ROUND_DOWN truncates towards zero, not
towards negative infinity; at amount -1e-9 BTC the conversion yields 0 while
floor would yield -1, and the pipeline goes on to use 0 (visible in the dust
error message). -/
theorem claim10_counterexample :
    toSatoshi (-(1 : Rat) / 1000000000) = 0 ∧
    ⌊(-(1 : Rat) / 1000000000) * 100000000⌋ = -1 ∧
    (sendTransaction envOkPipe acctA (-(1 : Rat) / 1000000000) "recip").2 =
      .error "send amount must be bigger than dust limit 546 got: 0" := by
  have hsat : toSatoshi (-(1 : Rat) / 1000000000) = 0 := by
    norm_num [toSatoshi, truncInt, ceilInt]
  have hcol : collectUtxos envOkPipe (toSatoshi (-(1 : Rat) / 1000000000)) acctA.address =
      ([.getUnspent "addr-self", .getTx "h1"],
       .ok [{ utxo := { tx_hash := "h1", tx_pos := 0, value := 5000 },
              vout := some { scriptPubKeyHex := "spk" } }]) := by
    rw [hsat]
    exact singleUtxo_collect envOkPipe 5000 0 "addr-self" rfl rfl (by norm_num)
  refine ⟨hsat, by norm_num, ?_⟩
  unfold sendTransaction
  dsimp only
  unfold createTransaction
  rw [show envOkPipe.feeEstimateResult = .ok 0 from rfl]
  dsimp only
  rw [hcol]
  dsimp only
  unfold generateRawTx
  rw [hsat, if_pos (show (0 : Int) ≤ DUST_LIMIT by unfold DUST_LIMIT; omega)]
  rfl

/-- C10 (amended): the BTC amount is converted once at entry to an integer
satoshi value by truncation towards zero of amount times 1e8 — equal to the
floor for every nonnegative amount, and to the ceiling for negative amounts
— and on success the recipient output of the assembled transaction carries
exactly this converted integer. -/
theorem claim10_truncation (amount : Rat) :
    (0 ≤ amount → toSatoshi amount = ⌊amount * 100000000⌋) ∧
    (amount < 0 → toSatoshi amount = ⌈amount * 100000000⌉) ∧
    (∀ env self toAddr evs r,
      createTransaction env self (toSatoshi amount) toAddr = (evs, .ok r) →
      r.draft.outputs.head? = some { address := toAddr, value := toSatoshi amount }) := by
  refine ⟨?_, ?_, ?_⟩
  · intro h
    unfold toSatoshi truncInt
    rw [if_pos (mul_nonneg h (by norm_num))]
  · intro h
    unfold toSatoshi truncInt
    rw [if_neg (not_le.mpr (mul_neg_of_neg_of_pos h (by norm_num))), ceilInt_eq]
  · intro env self toAddr evs r h
    obtain ⟨est, cs, evsG, hest, hcol, hg⟩ := createTransaction_ok_inv h
    obtain ⟨hdust, ins, d0, hb, hd0, hTA, hfee, hnn, htx, hhex, hdraft, hevs⟩ :=
      generateRawTx_ok_inv hg
    rw [hdraft]
    rfl

/-- C10 witness: at 0.00001 BTC the conversion agrees with the floor and the
recipient output of the assembled transaction carries the converted value. -/
theorem claim10_witness :
    toSatoshi (1 / 100000 : Rat) = ⌊(1 / 100000 : Rat) * 100000000⌋ ∧
    ({ txid := "txid0", hex := "rawhex0", fee := 141,
       draft := { inputs := [{ hash := "h1", index := 0,
                               witnessScriptHex := "spk", value := 5000 }],
                  outputs := [{ address := "recip", value := 1000 },
                              { address := "addr-self", value := 3859 }] } } :
      TxResult).draft.outputs.head? =
      some { address := "recip", value := toSatoshi (1 / 100000 : Rat) } := by
  have hsat : toSatoshi (1 / 100000 : Rat) = 1000 := by norm_num [toSatoshi, truncInt]
  have h : createTransaction envOkPipe acctA (toSatoshi (1 / 100000 : Rat)) "recip" =
      ([.estimateFee, .getUnspent "addr-self", .getTx "h1", .signInput 0 0, .signInput 1 0],
       .ok { txid := "txid0", hex := "rawhex0", fee := 141,
             draft := { inputs := [{ hash := "h1", index := 0,
                                     witnessScriptHex := "spk", value := 5000 }],
                        outputs := [{ address := "recip", value := 1000 },
                                    { address := "addr-self", value := 3859 }] } }) := by
    rw [hsat]
    exact envOkPipe_createTransaction
  exact ⟨(claim10_truncation (1 / 100000)).1 (by norm_num),
    (claim10_truncation (1 / 100000)).2.2 envOkPipe acctA "recip" _ _ h⟩

/-- C2 witness: the concrete successful pipeline instantiates the fee
formula (zero estimated rate, 110 vbytes, fee 141 = the relay-fee floor). -/
theorem claim2_witness :
    ∃ est cs d0,
      envOkPipe.feeEstimateResult = .ok est ∧
      (collectUtxos envOkPipe 1000 acctA.address).2 = .ok cs ∧
      zeroFeeDraft acctA cs 1000 "recip" = .ok d0 ∧
      (141 : Int) = max ⌈est * 100000 * (envOkPipe.vsizeOf d0 : Rat)⌉ 141 ∧
      (141 : Int) ≤ 141 :=
  claim2_fee_formula envOkPipe acctA 1000 "recip" _ _ envOkPipe_createTransaction

theorem envOkPipe_generateRawTx :
    generateRawTx envOkPipe acctA
      [{ utxo := { tx_hash := "h1", tx_pos := 0, value := 5000 },
         vout := some { scriptPubKeyHex := "spk" } }] 1000 "recip" 0 =
      ([.signInput 0 0, .signInput 1 0],
       .ok { txid := "txid0", hex := "rawhex0", fee := 141,
             draft := { inputs := [{ hash := "h1", index := 0,
                                     witnessScriptHex := "spk", value := 5000 }],
                        outputs := [{ address := "recip", value := 1000 },
                                    { address := "addr-self", value := 3859 }] } }) := by
  have hfee : computeFee (0 : Rat) 110 = 141 := by
    norm_num [computeFee, ceilInt]
  have hvs : ∀ d, envOkPipe.vsizeOf d = 110 := fun _ => rfl
  have htot : totalInputOf
      [{ utxo := { tx_hash := "h1", tx_pos := 0, value := 5000 },
         vout := some { scriptPubKeyHex := "spk" } }] = 5000 := by
    simp [totalInputOf]
  have hb : buildInputs
      [{ utxo := { tx_hash := "h1", tx_pos := 0, value := 5000 },
         vout := some { scriptPubKeyHex := "spk" } }] =
      .ok [{ hash := "h1", index := 0, witnessScriptHex := "spk", value := 5000 }] := rfl
  unfold generateRawTx
  rw [if_neg (show ¬ ((1000 : Int) ≤ DUST_LIMIT) by unfold DUST_LIMIT; omega)]
  dsimp only
  have hcp0 : createPsbt acctA
      [{ utxo := { tx_hash := "h1", tx_pos := 0, value := 5000 },
         vout := some { scriptPubKeyHex := "spk" } }] 1000
      (totalInputOf
        [{ utxo := { tx_hash := "h1", tx_pos := 0, value := 5000 },
           vout := some { scriptPubKeyHex := "spk" } }]) "recip" 0 0 =
      ([.signInput 0 0],
       .ok { inputs := [{ hash := "h1", index := 0, witnessScriptHex := "spk", value := 5000 }],
             outputs := [{ address := "recip", value := 1000 },
                         { address := "addr-self", value := 4000 }] }) := by
    rw [htot]
    unfold createPsbt
    rw [hb]
    dsimp only
    rw [if_pos (show (5000 : Int) - 1000 - 0 > DUST_LIMIT by unfold DUST_LIMIT; omega)]
    norm_num [signEvents, List.range_succ, acctA]
  rw [hcp0]
  dsimp only
  rw [hvs, hfee]
  have hcp1 : createPsbt acctA
      [{ utxo := { tx_hash := "h1", tx_pos := 0, value := 5000 },
         vout := some { scriptPubKeyHex := "spk" } }] 1000
      (totalInputOf
        [{ utxo := { tx_hash := "h1", tx_pos := 0, value := 5000 },
           vout := some { scriptPubKeyHex := "spk" } }]) "recip" 1 141 =
      ([.signInput 1 0],
       .ok { inputs := [{ hash := "h1", index := 0, witnessScriptHex := "spk", value := 5000 }],
             outputs := [{ address := "recip", value := 1000 },
                         { address := "addr-self", value := 3859 }] }) := by
    rw [htot]
    unfold createPsbt
    rw [hb]
    dsimp only
    rw [if_pos (show (5000 : Int) - 1000 - 141 > DUST_LIMIT by unfold DUST_LIMIT; omega)]
    norm_num [signEvents, List.range_succ, acctA]
  rw [hcp1]
  rfl

/-- C3 witness: the concrete successful assembly satisfies the change
invariant 0 <= T - A - F. -/
theorem claim3_witness :
    0 ≤ totalInputOf
        [{ utxo := { tx_hash := "h1", tx_pos := 0, value := 5000 },
           vout := some { scriptPubKeyHex := "spk" } }] - 1000 -
      ({ txid := "txid0", hex := "rawhex0", fee := 141,
         draft := { inputs := [{ hash := "h1", index := 0,
                                 witnessScriptHex := "spk", value := 5000 }],
                    outputs := [{ address := "recip", value := 1000 },
                                { address := "addr-self", value := 3859 }] } } :
        TxResult).fee :=
  (claim3_change_policy envOkPipe acctA
    [{ utxo := { tx_hash := "h1", tx_pos := 0, value := 5000 },
       vout := some { scriptPubKeyHex := "spk" } }] 1000 "recip" 0 _ _
    envOkPipe_generateRawTx).1

theorem foldl_add_shift (l : List Utxo) :
    ∀ init : Int, l.foldl (fun acc u => acc + u.value) init =
      init + l.foldl (fun acc u => acc + u.value) 0 := by
  induction l with
  | nil => intro init; simp
  | cons u rest ih =>
    intro init
    simp only [List.foldl_cons]
    rw [ih (init + u.value), ih (0 + u.value)]
    omega

theorem sumValues_cons (u : Utxo) (rest : List Utxo) :
    sumValues (u :: rest) = u.value + sumValues rest := by
  unfold sumValues
  rw [List.foldl_cons, foldl_add_shift]
  omega

theorem collectLoop_first_fit (env : Env) (amount : Int) :
    ∀ (us : List Utxo) (total : Int), us ≠ [] →
      (∀ u ∈ us, ∃ t, env.txResult u.tx_hash = .ok t) →
      ∃ k cs, 1 ≤ k ∧ k ≤ us.length ∧
        collectLoop env amount us total =
          ((us.take k).map (fun u => Event.getTx u.tx_hash), .ok cs) ∧
        cs.map CollectedUtxo.utxo = us.take k ∧
        (total + sumValues (us.take k) ≥ amount ∨ k = us.length) ∧
        (∀ j, 1 ≤ j → j < k → total + sumValues (us.take j) < amount) := by
  intro us
  induction us with
  | nil => intro total h; exact absurd rfl h
  | cons u rest ih =>
    intro total _ hfetch
    obtain ⟨t, ht⟩ := hfetch u (List.mem_cons_self u rest)
    by_cases hge : total + u.value ≥ amount
    · refine ⟨1, [{ utxo := u, vout := t.vout.get? u.tx_pos }],
        le_refl 1, by simp, ?_, by simp, ?_, ?_⟩
      · unfold collectLoop
        rw [ht]
        dsimp only
        rw [if_pos hge]
        simp [List.take_succ_cons]
      · left
        simp only [List.take_succ_cons, List.take_zero, sumValues_cons]
        have hz : sumValues [] = 0 := rfl
        omega
      · intro j h1 h2
        omega
    · rcases rest with _ | ⟨v, rest2⟩
      · refine ⟨1, [{ utxo := u, vout := t.vout.get? u.tx_pos }],
          le_refl 1, by simp, ?_, by simp, ?_, ?_⟩
        · unfold collectLoop
          rw [ht]
          dsimp only
          rw [if_neg hge]
          rfl
        · right
          rfl
        · intro j h1 h2
          omega
      · have hfetch2 : ∀ w ∈ v :: rest2, ∃ t2, env.txResult w.tx_hash = .ok t2 :=
          fun w hw => hfetch w (List.mem_cons_of_mem u hw)
        obtain ⟨k2, cs2, hk1, hklen, hloop, hmap, hsum, hmin⟩ :=
          ih (total + u.value) (by simp) hfetch2
        refine ⟨k2 + 1, { utxo := u, vout := t.vout.get? u.tx_pos } :: cs2,
          by omega, by simp only [List.length_cons] at hklen ⊢; omega, ?_, ?_, ?_, ?_⟩
        · unfold collectLoop
          rw [ht]
          dsimp only
          rw [if_neg hge, hloop]
          simp [List.take_succ_cons]
        · simp [List.take_succ_cons, hmap]
        · rcases hsum with hs | hs
          · left
            rw [List.take_succ_cons, sumValues_cons]
            omega
          · right
            simp [hs]
        · intro j h1 h2
          rcases j with _ | j2
          · omega
          · rw [List.take_succ_cons, sumValues_cons]
            by_cases hj : j2 = 0
            · subst hj
              have hz : sumValues ((v :: rest2).take 0) = 0 := rfl
              omega
            · have := hmin j2 (by omega) (by omega)
              omega

/-- C5 (amended): UTXO selection is first-fit over the server-returned
order, collecting the shortest non-empty prefix whose value sum reaches the
requested amount (the whole list if none suffices); at least one candidate
is always collected, so for a zero or negative requested amount the selected
prefix has length one even though the empty prefix already suffices; for a
positive amount it is exactly the shortest sufficient prefix. One parent
transaction is fetched per collected candidate to resolve its previous
output, and an empty or missing unspent list fails with the
no-outputs-available error. -/
theorem claim5_first_fit (env : Env) (amount : Int) (address : String) :
    ((env.unspentResult = .ok none ∨ env.unspentResult = .ok (some [])) →
      (collectUtxos env amount address).2 = .error "No unspent outputs available") ∧
    (∀ us, env.unspentResult = .ok (some us) → us ≠ [] →
      (∀ u ∈ us, ∃ t, env.txResult u.tx_hash = .ok t) →
      ∃ k cs, 1 ≤ k ∧ k ≤ us.length ∧
        collectUtxos env amount address =
          (Event.getUnspent address :: (us.take k).map (fun u => Event.getTx u.tx_hash),
           .ok cs) ∧
        cs.map CollectedUtxo.utxo = us.take k ∧
        (sumValues (us.take k) ≥ amount ∨ k = us.length) ∧
        (∀ j, 1 ≤ j → j < k → sumValues (us.take j) < amount) ∧
        (0 < amount → ∀ j, j < k → sumValues (us.take j) < amount)) := by
  constructor
  · intro h
    rcases h with h | h <;> (unfold collectUtxos; rw [h])
  · intro us hus hne hfetch
    rcases us with _ | ⟨u, rest⟩
    · exact absurd rfl hne
    · obtain ⟨k, cs, hk1, hklen, hloop, hmap, hsum, hmin⟩ :=
        collectLoop_first_fit env amount (u :: rest) 0 hne hfetch
      refine ⟨k, cs, hk1, hklen, ?_, hmap, ?_, ?_, ?_⟩
      · unfold collectUtxos
        rw [hus]
        dsimp only
        rw [hloop]
      · rcases hsum with hs | hs
        · left
          omega
        · right
          exact hs
      · intro j h1 h2
        have := hmin j h1 h2
        omega
      · intro hpos j hj
        rcases j with _ | j2
        · have hz : sumValues ((u :: rest).take 0) = 0 := rfl
          omega
        · have := hmin (j2 + 1) (by omega) hj
          omega

/-- C5 counterexample: at requested amount 0 the empty prefix already
reaches the amount, yet the loop still collects (and fetches the parent of)
the first unspent output — the collected set is not the shortest sufficient
prefix. -/
theorem claim5_counterexample :
    (collectUtxos envOkPipe 0 "addr-self").2 =
      .ok [{ utxo := { tx_hash := "h1", tx_pos := 0, value := 5000 },
             vout := some { scriptPubKeyHex := "spk" } }] ∧
    sumValues (List.take 0 [{ tx_hash := "h1", tx_pos := 0, value := 5000 }]) ≥ 0 := by
  constructor
  · rw [singleUtxo_collect envOkPipe 5000 0 "addr-self" rfl rfl (by norm_num)]
  · have hz : sumValues (List.take 0 [{ tx_hash := "h1", tx_pos := 0, value := 5000 }]) = 0 := rfl
    omega

/-- C5 witness: a missing unspent list fails with the no-outputs-available
error. -/
theorem claim5_witness :
    (collectUtxos envBase 1000 "nowhere").2 = .error "No unspent outputs available" :=
  (claim5_first_fit envBase 1000 "nowhere").1 (Or.inl rfl)
